import Mathlib

/-!
# Verification of the multi-bank deposito reconciliation engine

Shallow embedding of the core of the `rekon-deposito` repository:

* `models/bank_base.py` — record/result data model and `BankBase.reconcile`;
* `models/bank_btpn.py`, `models/bank_bps.py` — adapter-specific
  holding-period parsing and `calculate_expected_imbal_hasil`;
* `services/rekon_service.py` — `MultiRekonService.process_reconciliation`
  and `process_multiple_banks`.

Monetary amounts and rates (Python floats) are modelled as rationals `ℚ`;
dates are modelled as integer day numbers, so that Python's
`(d2 - d1).days` becomes integer subtraction.  Python `dict`s are modelled
as association lists with insertion-order semantics: inserting an existing
key replaces the value in place, a new key is appended at the end, and
iteration over `.values()` follows that order — exactly CPython's
behaviour, on which `BankBase.reconcile` relies.
-/

namespace Rekon

/-! ## Python dict as an insertion-ordered association list -/

/-- `d[k]`-style lookup: first entry whose key equals `k`. -/
def dictFind {κ α : Type} [DecidableEq κ] (k : κ) : List (κ × α) → Option α
  | [] => none
  | (k', v) :: rest => if k' = k then some v else dictFind k rest

/-- `d[k] = v`: replace the value in place if the key exists (CPython keeps
the key's original position), otherwise append the new entry at the end. -/
def dictInsert {κ α : Type} [DecidableEq κ] (k : κ) (v : α) : List (κ × α) → List (κ × α)
  | [] => [(k, v)]
  | (k', v') :: rest =>
      if k' = k then (k, v) :: rest else (k', v') :: dictInsert k v rest

/-- `del d[k]`: remove the entry with key `k` (all occurrences — a dict
built with `dictInsert` never holds two entries with the same key). -/
def dictErase {κ α : Type} [DecidableEq κ] (k : κ) : List (κ × α) → List (κ × α)
  | [] => []
  | (k', v) :: rest =>
      if k' = k then dictErase k rest else (k', v) :: dictErase k rest

/-! ## Data model (`models/bank_base.py`) -/

/-- `DepositoType` enum, in Python definition order. -/
inductive DepositoType : Type
  | SETORAN_AWAL
  | SETORAN_LUNAS
  | NILAI_MANFAAT
  | LPS
  | DAU
deriving DecidableEq, Repr

/-- The `.value` string of each `DepositoType` member. -/
def DepositoType.value : DepositoType → String
  | .SETORAN_AWAL => "SA"
  | .SETORAN_LUNAS => "SL"
  | .NILAI_MANFAAT => "NM"
  | .LPS => "LPS"
  | .DAU => "DAU"

/-- `RekonStatus` enum. -/
inductive RekonStatus : Type
  | MATCHED
  | DIFFERENCE
  | NOT_FOUND_BANK
  | NOT_FOUND_BPKH
  | PENDING
deriving DecidableEq, Repr

/-- `DepositoRecord` dataclass.  Amounts are `ℚ`; dates are integer day
numbers wrapped in `Option` (Python `None` ↦ `none`). -/
structure DepositoRecord : Type where
  bank_code : String
  nomor_bilyet : String
  nomor_rekening : String
  nominal_deposito : ℚ
  nominal_imbal_hasil : ℚ
  jenis_deposito : DepositoType
  tanggal_penempatan : Option Int := none
  tanggal_jatuh_tempo : Option Int := none
  tanggal_realisasi : Option Int := none
  nisbah_rate : Option ℚ := none
  periode_hari : Option Int := none
  source : String := "bank"
deriving DecidableEq, Repr

/-- `RekonResult` dataclass. -/
structure RekonResult : Type where
  bank_code : String
  nomor_bilyet : String
  nomor_rekening : String
  nominal_deposito : ℚ
  imbal_hasil_bank : ℚ
  imbal_hasil_bpkh : ℚ
  selisih : ℚ
  persentase_selisih : ℚ
  status : RekonStatus
  jenis_deposito : DepositoType
  periode : String
  notes : Option String := none
deriving DecidableEq, Repr

/-- The matching key `(rec.nomor_bilyet, rec.nomor_rekening)` of a record. -/
def recKey (r : DepositoRecord) : String × String :=
  (r.nomor_bilyet, r.nomor_rekening)

/-- The key of a result, formed from the same two fields. -/
def resKey (r : RekonResult) : String × String :=
  (r.nomor_bilyet, r.nomor_rekening)

/-- Models `tanggal_penempatan.strftime('%b-%y') if tanggal_penempatan else
"N/A"`: an opaque-but-concrete rendering of the placement day number (the
exact label text plays no role in any property below). -/
def formatPeriode : Option Int → String
  | none => "N/A"
  | some d => "P" ++ toString d

/-! ## `BankBase.reconcile` (`models/bank_base.py`, lines 171–259) -/

/-- The `RekonResult` built in the `if key in bpkh_lookup` branch. -/
def mkMatched (bank_code : String) (bank_rec bpkh_rec : DepositoRecord) : RekonResult :=
  let selisih := bank_rec.nominal_imbal_hasil - bpkh_rec.nominal_imbal_hasil
  { bank_code := bank_code
    nomor_bilyet := bank_rec.nomor_bilyet
    nomor_rekening := bank_rec.nomor_rekening
    nominal_deposito := bank_rec.nominal_deposito
    imbal_hasil_bank := bank_rec.nominal_imbal_hasil
    imbal_hasil_bpkh := bpkh_rec.nominal_imbal_hasil
    selisih := selisih
    persentase_selisih :=
      if bank_rec.nominal_imbal_hasil ≠ 0
        then selisih / bank_rec.nominal_imbal_hasil * 100 else 0
    status := if |selisih| < 1 then RekonStatus.MATCHED else RekonStatus.DIFFERENCE
    jenis_deposito := bank_rec.jenis_deposito
    periode := formatPeriode bank_rec.tanggal_penempatan
    notes := none }

/-- The `RekonResult` built in the `else` branch (bank record with no BPKH
counterpart). -/
def mkNotFoundBPKH (bank_code : String) (bank_rec : DepositoRecord) : RekonResult :=
  { bank_code := bank_code
    nomor_bilyet := bank_rec.nomor_bilyet
    nomor_rekening := bank_rec.nomor_rekening
    nominal_deposito := bank_rec.nominal_deposito
    imbal_hasil_bank := bank_rec.nominal_imbal_hasil
    imbal_hasil_bpkh := 0
    selisih := bank_rec.nominal_imbal_hasil
    persentase_selisih := 100
    status := RekonStatus.NOT_FOUND_BPKH
    jenis_deposito := bank_rec.jenis_deposito
    periode := formatPeriode bank_rec.tanggal_penempatan
    notes := some "Record not found in BPKH data" }

/-- The `RekonResult` built in the final loop over the leftover BPKH
records. -/
def mkNotFoundBank (bank_code : String) (bpkh_rec : DepositoRecord) : RekonResult :=
  { bank_code := bank_code
    nomor_bilyet := bpkh_rec.nomor_bilyet
    nomor_rekening := bpkh_rec.nomor_rekening
    nominal_deposito := bpkh_rec.nominal_deposito
    imbal_hasil_bank := 0
    imbal_hasil_bpkh := bpkh_rec.nominal_imbal_hasil
    selisih := -bpkh_rec.nominal_imbal_hasil
    persentase_selisih := -100
    status := RekonStatus.NOT_FOUND_BANK
    jenis_deposito := bpkh_rec.jenis_deposito
    periode := formatPeriode bpkh_rec.tanggal_penempatan
    notes := some "Record not found in Bank data" }

/-- The dict comprehension
`{(rec.nomor_bilyet, rec.nomor_rekening): rec for rec in bpkh_records}`:
left fold of `dictInsert` over the records in source order. -/
def buildLookup (bpkh_records : List DepositoRecord) : List ((String × String) × DepositoRecord) :=
  bpkh_records.foldl (fun d rec => dictInsert (recKey rec) rec d) []

/-- The `for bank_rec in bank_records` loop: emits one result per bank
record and threads the (mutated) lookup through, returning the leftover
lookup for the final pass. -/
def reconcileLoop (bank_code : String) :
    List DepositoRecord → List ((String × String) × DepositoRecord) →
    List RekonResult × List ((String × String) × DepositoRecord)
  | [], lookup => ([], lookup)
  | bank_rec :: rest, lookup =>
    match dictFind (recKey bank_rec) lookup with
    | some bpkh_rec =>
        let step := reconcileLoop bank_code rest (dictErase (recKey bank_rec) lookup)
        (mkMatched bank_code bank_rec bpkh_rec :: step.1, step.2)
    | none =>
        let step := reconcileLoop bank_code rest lookup
        (mkNotFoundBPKH bank_code bank_rec :: step.1, step.2)

/-- `BankBase.reconcile`: match bank records against the BPKH lookup, then
emit every remaining BPKH record as not-found-in-bank. -/
def reconcile (bank_code : String)
    (bank_records bpkh_records : List DepositoRecord) : List RekonResult :=
  let lookup := buildLookup bpkh_records
  let step := reconcileLoop bank_code bank_records lookup
  step.1 ++ step.2.map (fun e => mkNotFoundBank bank_code e.2)

/-! ## Dictionary lemmas -/

theorem dictFind_eq_none_iff {κ α : Type} [DecidableEq κ] {k : κ} {l : List (κ × α)} :
    dictFind k l = none ↔ ∀ e ∈ l, e.1 ≠ k := by
  induction l with
  | nil => simp [dictFind]
  | cons e rest ih =>
    obtain ⟨k', v⟩ := e
    by_cases h : k' = k <;> simp [dictFind, h, ih]

theorem dictErase_eq_filter {κ α : Type} [DecidableEq κ] (k : κ) (l : List (κ × α)) :
    dictErase k l = l.filter (fun e => decide (e.1 ≠ k)) := by
  induction l with
  | nil => rfl
  | cons e rest ih =>
    obtain ⟨k', v⟩ := e
    by_cases h : k' = k <;> simp [dictErase, h, ih]

theorem dictFind_erase_ne {κ α : Type} [DecidableEq κ] {k k' : κ} (l : List (κ × α))
    (h : k' ≠ k) : dictFind k (dictErase k' l) = dictFind k l := by
  induction l with
  | nil => rfl
  | cons e rest ih =>
    obtain ⟨k'', v⟩ := e
    by_cases h1 : k'' = k'
    · subst h1
      simp [dictErase, dictFind, ih, h]
    · by_cases h2 : k'' = k
      · subst h2
        have hk : ¬ k'' = k' := h1
        simp [dictErase, dictFind, hk]
      · simp [dictErase, dictFind, h1, h2, ih]

theorem dictFind_insert {κ α : Type} [DecidableEq κ] (k k' : κ) (v : α) (l : List (κ × α)) :
    dictFind k (dictInsert k' v l) = if k' = k then some v else dictFind k l := by
  induction l with
  | nil => simp [dictInsert, dictFind]
  | cons e rest ih =>
    obtain ⟨k'', v'⟩ := e
    by_cases h1 : k'' = k'
    · subst h1
      by_cases h2 : k'' = k <;> simp [dictInsert, dictFind, h2, ih]
    · by_cases h2 : k'' = k
      · subst h2
        have : ¬ k' = k'' := fun h => h1 h.symm
        simp [dictInsert, dictFind, h1, this]
      · simp [dictInsert, dictFind, h1, h2, ih]

theorem mem_dictInsert {κ α : Type} [DecidableEq κ] {k : κ} {v : α} {l : List (κ × α)}
    {e : κ × α} (he : e ∈ dictInsert k v l) : e = (k, v) ∨ e ∈ l := by
  induction l with
  | nil => simpa [dictInsert] using he
  | cons e' rest ih =>
    obtain ⟨k', v'⟩ := e'
    by_cases h : k' = k
    · simp [dictInsert, h] at he
      rcases he with he | he
      · exact Or.inl (by simp [he])
      · exact Or.inr (by simp [he])
    · simp [dictInsert, h] at he
      rcases he with he | he
      · exact Or.inr (by simp [he])
      · rcases ih he with h' | h'
        · exact Or.inl h'
        · exact Or.inr (by simp [h'])

theorem dictInsert_of_not_mem {κ α : Type} [DecidableEq κ] {k : κ} (v : α)
    {l : List (κ × α)} (h : ∀ e ∈ l, e.1 ≠ k) : dictInsert k v l = l ++ [(k, v)] := by
  induction l with
  | nil => rfl
  | cons e rest ih =>
    obtain ⟨k', v'⟩ := e
    have hk : k' ≠ k := h (k', v') (by simp)
    simp only [dictInsert, hk, if_false, List.cons_append, List.cons.injEq, true_and]
    exact ih (fun e he => h e (by simp [he]))

/-- Every entry of the BPKH lookup pairs a record of the input with its own
key. -/
theorem mem_buildLookup {bpkh : List DepositoRecord}
    {e : (String × String) × DepositoRecord} (he : e ∈ buildLookup bpkh) :
    e.1 = recKey e.2 ∧ e.2 ∈ bpkh := by
  suffices h : ∀ (l : List DepositoRecord) (d : List ((String × String) × DepositoRecord)),
      e ∈ l.foldl (fun d rec => dictInsert (recKey rec) rec d) d →
      (e.1 = recKey e.2 ∧ e.2 ∈ l) ∨ e ∈ d by
    rcases h bpkh [] he with h' | h'
    · exact h'
    · simp at h'
  intro l
  induction l with
  | nil => intro d hd; exact Or.inr hd
  | cons r rest ih =>
    intro d hd
    rcases ih (dictInsert (recKey r) r d) hd with h' | h'
    · exact Or.inl ⟨h'.1, by simp [h'.2]⟩
    · rcases mem_dictInsert h' with h'' | h''
      · exact Or.inl ⟨by simp [h''], by simp [h'']⟩
      · exact Or.inr h''

/-- Looking a key up in the dict built by the comprehension returns the
*last* record of the input with that key (later entries overwrite earlier
ones). -/
theorem dictFind_buildLookup (k : String × String) (l : List DepositoRecord) :
    dictFind k (buildLookup l) = l.reverse.find? (fun r => decide (recKey r = k)) := by
  suffices h : ∀ (l : List DepositoRecord) (d : List ((String × String) × DepositoRecord)),
      dictFind k (l.foldl (fun d rec => dictInsert (recKey rec) rec d) d) =
        match l.reverse.find? (fun r => decide (recKey r = k)) with
        | some q => some q
        | none => dictFind k d by
    have h' := h l []
    rw [buildLookup, h']
    cases hf : l.reverse.find? (fun r => decide (recKey r = k)) <;> simp [dictFind]
  intro l
  induction l with
  | nil => intro d; simp
  | cons r rest ih =>
    intro d
    simp only [List.foldl_cons, List.reverse_cons, List.find?_append]
    rw [ih (dictInsert (recKey r) r d)]
    cases hf : rest.reverse.find? (fun r => decide (recKey r = k))
    · rw [dictFind_insert]
      by_cases hk : recKey r = k <;> simp [List.find?, hk, Option.or]
    · simp [Option.or]

/-- When the input's keys are pairwise distinct, the comprehension builds
exactly the association list of the records in source order. -/
theorem buildLookup_of_nodup {l : List DepositoRecord}
    (h : (l.map recKey).Nodup) :
    buildLookup l = l.map (fun r => (recKey r, r)) := by
  suffices haux : ∀ (l : List DepositoRecord) (d : List ((String × String) × DepositoRecord)),
      (l.map recKey).Nodup → (∀ r ∈ l, ∀ e ∈ d, e.1 ≠ recKey r) →
      l.foldl (fun d rec => dictInsert (recKey rec) rec d) d =
        d ++ l.map (fun r => (recKey r, r)) by
    simpa using haux l [] h (by simp)
  intro l
  induction l with
  | nil => intro d _ _; simp
  | cons r rest ih =>
    intro d hnd hdisj
    simp only [List.foldl_cons]
    rw [dictInsert_of_not_mem r (fun e he => hdisj r (by simp) e he)]
    rw [ih (d ++ [(recKey r, r)]) (by simpa using hnd.of_cons)]
    · simp
    · intro r' hr' e he
      rcases List.mem_append.mp he with h' | h'
      · exact hdisj r' (by simp [hr']) e h'
      · simp only [List.mem_singleton] at h'
        subst h'
        simp only [List.map_cons, List.nodup_cons] at hnd
        intro hcontra
        have hcontra' : recKey r = recKey r' := hcontra
        exact hnd.1 (by rw [hcontra']; exact List.mem_map_of_mem recKey hr')

/-! ## Structural lemmas about `reconcile` -/

theorem resKey_mkMatched (bc : String) (r q : DepositoRecord) :
    resKey (mkMatched bc r q) = recKey r := rfl

theorem resKey_mkNotFoundBPKH (bc : String) (r : DepositoRecord) :
    resKey (mkNotFoundBPKH bc r) = recKey r := rfl

theorem resKey_mkNotFoundBank (bc : String) (q : DepositoRecord) :
    resKey (mkNotFoundBank bc q) = recKey q := rfl

/-- The matching pass emits exactly one result per bank record, in order,
carrying that record's key. -/
theorem reconcileLoop_fst_keys (bc : String) (bank : List DepositoRecord)
    (d : List ((String × String) × DepositoRecord)) :
    ((reconcileLoop bc bank d).1).map resKey = bank.map recKey := by
  induction bank generalizing d with
  | nil => rfl
  | cons r rest ih =>
    simp only [reconcileLoop]
    cases hf : dictFind (recKey r) d <;>
      simp [resKey_mkMatched, resKey_mkNotFoundBPKH, ih]

/-- After the matching pass, the lookup holds exactly the entries whose key
never occurred among the bank records. -/
theorem reconcileLoop_snd (bc : String) (bank : List DepositoRecord)
    (d : List ((String × String) × DepositoRecord)) :
    (reconcileLoop bc bank d).2 =
      d.filter (fun e => decide (e.1 ∉ bank.map recKey)) := by
  induction bank generalizing d with
  | nil => simp [reconcileLoop]
  | cons r rest ih =>
    simp only [reconcileLoop]
    cases hf : dictFind (recKey r) d with
    | some q =>
      simp only
      rw [ih, dictErase_eq_filter, List.filter_filter]
      apply List.filter_congr
      intro e _
      simp only [List.map_cons, List.mem_cons, decide_not]
      by_cases h1 : e.1 = recKey r <;> by_cases h2 : e.1 ∈ rest.map recKey <;>
        simp [h1, h2]
    | none =>
      simp only
      rw [ih]
      apply List.filter_congr
      intro e he
      have hne : e.1 ≠ recKey r := dictFind_eq_none_iff.mp hf e he
      simp [List.mem_cons, hne]

theorem map_fst_filter {κ α : Type} (p : κ → Bool) (l : List (κ × α)) :
    (l.filter (fun e => p e.1)).map Prod.fst = (l.map Prod.fst).filter p := by
  induction l with
  | nil => rfl
  | cons e rest ih =>
    cases hp : p e.1 <;> simp [List.filter_cons, hp, ih]

/-- Keys of the full result list: the bank keys in order, followed by the
surviving lookup keys in order. -/
theorem reconcile_map_resKey (bc : String) (bank bpkh : List DepositoRecord) :
    (reconcile bc bank bpkh).map resKey =
      bank.map recKey ++
        ((buildLookup bpkh).map Prod.fst).filter
          (fun k => decide (k ∉ bank.map recKey)) := by
  unfold reconcile
  simp only [List.map_append, List.map_map]
  congr 1
  · exact reconcileLoop_fst_keys bc bank (buildLookup bpkh)
  · rw [reconcileLoop_snd]
    have h1 : ((buildLookup bpkh).filter
        (fun e => decide (e.1 ∉ bank.map recKey))).map (resKey ∘ fun e => mkNotFoundBank bc e.2) =
        ((buildLookup bpkh).filter
          (fun e => decide (e.1 ∉ bank.map recKey))).map Prod.fst := by
      apply List.map_congr_left
      intro e he
      have hmem : e ∈ buildLookup bpkh := (List.mem_filter.mp he).1
      have := (mem_buildLookup hmem).1
      simp [resKey_mkNotFoundBank, this]
    rw [h1]
    exact map_fst_filter (fun k => decide (k ∉ bank.map recKey)) (buildLookup bpkh)

/-- If some bank record carries key `k` and the lookup maps `k` to `q`,
then the unique result carrying `k` is the matched result against `q`.
Requires the bank keys to be duplicate-free. -/
theorem reconcileLoop_matched_char (bc : String) (bank : List DepositoRecord)
    (d : List ((String × String) × DepositoRecord))
    (hb : (bank.map recKey).Nodup) {r q : DepositoRecord} (hr : r ∈ bank)
    (hfind : dictFind (recKey r) d = some q) :
    ∀ res ∈ (reconcileLoop bc bank d).1, resKey res = recKey r →
      res = mkMatched bc r q := by
  induction bank generalizing d with
  | nil => simp at hr
  | cons r' rest ih =>
    simp only [List.map_cons, List.nodup_cons] at hb
    rcases List.mem_cons.mp hr with rfl | hr'
    · simp only [reconcileLoop, hfind]
      intro res hres hkey
      rcases List.mem_cons.mp hres with rfl | hres'
      · rfl
      · exfalso
        apply hb.1
        have : resKey res ∈ ((reconcileLoop bc rest (dictErase (recKey r) d)).1).map resKey :=
          List.mem_map_of_mem resKey hres'
        rw [reconcileLoop_fst_keys] at this
        rw [hkey] at this
        exact this
    · have hkne : recKey r' ≠ recKey r := by
        intro hcontra
        exact hb.1 (hcontra ▸ List.mem_map_of_mem recKey hr')
      simp only [reconcileLoop]
      cases hf : dictFind (recKey r') d with
      | some q' =>
        intro res hres hkey
        rcases List.mem_cons.mp hres with rfl | hres'
        · exact absurd (resKey_mkMatched bc r' q' ▸ hkey) hkne
        · exact ih (dictErase (recKey r') d) hb.2 hr'
            ((dictFind_erase_ne d hkne).trans hfind) res hres' hkey
      | none =>
        intro res hres hkey
        rcases List.mem_cons.mp hres with rfl | hres'
        · exact absurd (resKey_mkNotFoundBPKH bc r' ▸ hkey) hkne
        · exact ih d hb.2 hr' hfind res hres' hkey

/-- If some bank record carries key `k` and the lookup has no entry for
`k`, then the unique result carrying `k` is the not-found-in-BPKH result. -/
theorem reconcileLoop_notfound_char (bc : String) (bank : List DepositoRecord)
    (d : List ((String × String) × DepositoRecord))
    (hb : (bank.map recKey).Nodup) {r : DepositoRecord} (hr : r ∈ bank)
    (hfind : dictFind (recKey r) d = none) :
    ∀ res ∈ (reconcileLoop bc bank d).1, resKey res = recKey r →
      res = mkNotFoundBPKH bc r := by
  induction bank generalizing d with
  | nil => simp at hr
  | cons r' rest ih =>
    simp only [List.map_cons, List.nodup_cons] at hb
    rcases List.mem_cons.mp hr with rfl | hr'
    · simp only [reconcileLoop, hfind]
      intro res hres hkey
      rcases List.mem_cons.mp hres with rfl | hres'
      · rfl
      · exfalso
        apply hb.1
        have : resKey res ∈ ((reconcileLoop bc rest d).1).map resKey :=
          List.mem_map_of_mem resKey hres'
        rw [reconcileLoop_fst_keys] at this
        rw [hkey] at this
        exact this
    · have hkne : recKey r' ≠ recKey r := by
        intro hcontra
        exact hb.1 (hcontra ▸ List.mem_map_of_mem recKey hr')
      simp only [reconcileLoop]
      cases hf : dictFind (recKey r') d with
      | some q' =>
        intro res hres hkey
        rcases List.mem_cons.mp hres with rfl | hres'
        · exact absurd (resKey_mkMatched bc r' q' ▸ hkey) hkne
        · exact ih (dictErase (recKey r') d) hb.2 hr'
            ((dictFind_erase_ne d hkne).trans hfind) res hres' hkey
      | none =>
        intro res hres hkey
        rcases List.mem_cons.mp hres with rfl | hres'
        · exact absurd (resKey_mkNotFoundBPKH bc r' ▸ hkey) hkne
        · exact ih d hb.2 hr' hfind res hres' hkey

/-- A result whose key belongs to some bank record comes from the matching
pass, never from the leftover pass. -/
theorem mem_fst_of_key_in_bank {bc : String} {bank bpkh : List DepositoRecord}
    {res : RekonResult} (hres : res ∈ reconcile bc bank bpkh)
    (hkey : resKey res ∈ bank.map recKey) :
    res ∈ (reconcileLoop bc bank (buildLookup bpkh)).1 := by
  unfold reconcile at hres
  rcases List.mem_append.mp hres with h | h
  · exact h
  · exfalso
    simp only [List.mem_map] at h
    obtain ⟨e, he, rfl⟩ := h
    rw [reconcileLoop_snd] at he
    have h1 := List.mem_filter.mp he
    have h2 : e.1 = recKey e.2 := (mem_buildLookup h1.1).1
    rw [resKey_mkNotFoundBank, ← h2] at hkey
    have := of_decide_eq_true h1.2
    exact this hkey

theorem find?_eq_some_of_nodup {α β : Type} (f : α → β) [DecidableEq β]
    {l : List α} (h : (l.map f).Nodup) {q : α} (hq : q ∈ l) {k : β} (hk : f q = k) :
    l.find? (fun r => decide (f r = k)) = some q := by
  induction l with
  | nil => simp at hq
  | cons a rest ih =>
    simp only [List.map_cons, List.nodup_cons] at h
    rcases List.mem_cons.mp hq with rfl | hq'
    · simp [List.find?, hk]
    · have hne : f a ≠ k := by
        intro hcontra
        exact h.1 (by rw [hcontra, ← hk]; exact List.mem_map_of_mem f hq')
      rw [List.find?_cons_of_neg _ (by simp [hne])]
      exact ih h.2 hq'

/-- With duplicate-free BPKH keys, the lookup maps each record's key to
that record. -/
theorem dictFind_buildLookup_of_mem {bpkh : List DepositoRecord}
    (hp : (bpkh.map recKey).Nodup) {q : DepositoRecord} (hq : q ∈ bpkh) :
    dictFind (recKey q) (buildLookup bpkh) = some q := by
  rw [dictFind_buildLookup]
  refine find?_eq_some_of_nodup recKey ?_ (List.mem_reverse.mpr hq) rfl
  rw [List.map_reverse]
  exact List.nodup_reverse.mpr hp

/-- **C1.** When no two records within the same input share the
(certificate number, account number) key, `reconcile` produces exactly one
`RekonResult` per key appearing in either input: the result keys are
duplicate-free, their set is exactly the union of the two input key sets,
and the number of results equals the size of that union. -/
theorem reconcile_one_result_per_key (bc : String) (bank bpkh : List DepositoRecord)
    (hb : (bank.map recKey).Nodup) (hp : (bpkh.map recKey).Nodup) :
    ((reconcile bc bank bpkh).map resKey).Nodup ∧
    ((reconcile bc bank bpkh).map resKey).toFinset =
      (bank.map recKey).toFinset ∪ (bpkh.map recKey).toFinset ∧
    (reconcile bc bank bpkh).length =
      ((bank.map recKey).toFinset ∪ (bpkh.map recKey).toFinset).card := by
  have hkeys := reconcile_map_resKey bc bank bpkh
  rw [buildLookup_of_nodup hp] at hkeys
  have hfst : ((bpkh.map (fun r => (recKey r, r))).map Prod.fst) = bpkh.map recKey := by
    rw [List.map_map]
    rfl
  rw [hfst] at hkeys
  have hnodup : ((reconcile bc bank bpkh).map resKey).Nodup := by
    rw [hkeys]
    refine List.Nodup.append hb (hp.filter _) ?_
    intro a ha hfa
    have := of_decide_eq_true (List.mem_filter.mp hfa).2
    exact this ha
  have hset : ((reconcile bc bank bpkh).map resKey).toFinset =
      (bank.map recKey).toFinset ∪ (bpkh.map recKey).toFinset := by
    rw [hkeys, List.toFinset_append]
    ext a
    simp only [Finset.mem_union, List.mem_toFinset, List.mem_filter,
      decide_eq_true_eq]
    constructor
    · rintro (h | ⟨h, _⟩)
      · exact Or.inl h
      · exact Or.inr h
    · rintro (h | h)
      · exact Or.inl h
      · by_cases hmem : a ∈ bank.map recKey
        · exact Or.inl hmem
        · exact Or.inr ⟨h, hmem⟩
  refine ⟨hnodup, hset, ?_⟩
  have hlen : (reconcile bc bank bpkh).length =
      ((reconcile bc bank bpkh).map resKey).length := (List.length_map _ _).symm
  rw [hlen, ← List.toFinset_card_of_nodup hnodup, hset]

/-- Sample primary-side record (key `("A1", "001")`, yield 10). -/
def sampleBankRec : DepositoRecord :=
  { bank_code := "BTPN", nomor_bilyet := "A1", nomor_rekening := "001"
    nominal_deposito := 1000, nominal_imbal_hasil := 10
    jenis_deposito := DepositoType.SETORAN_AWAL, source := "bank" }

/-- Sample counterparty record with the same key as `sampleBankRec` and
equal yield. -/
def sampleBpkhRec : DepositoRecord :=
  { bank_code := "BTPN", nomor_bilyet := "A1", nomor_rekening := "001"
    nominal_deposito := 1000, nominal_imbal_hasil := 10
    jenis_deposito := DepositoType.SETORAN_AWAL, source := "bpkh" }

/-- Sample counterparty record with a key distinct from `sampleBankRec`'s. -/
def sampleBpkhRec2 : DepositoRecord :=
  { bank_code := "BTPN", nomor_bilyet := "B2", nomor_rekening := "002"
    nominal_deposito := 500, nominal_imbal_hasil := 20
    jenis_deposito := DepositoType.NILAI_MANFAAT, source := "bpkh" }

/-- Witness for C1 on a concrete one-record-per-side input with distinct
keys: two results, matching the size of the key union. -/
theorem reconcile_one_result_per_key_witness :
    (([sampleBankRec].map recKey).Nodup ∧ ([sampleBpkhRec2].map recKey).Nodup) ∧
    (reconcile "BTPN" [sampleBankRec] [sampleBpkhRec2]).length =
      (([sampleBankRec].map recKey).toFinset ∪
        ([sampleBpkhRec2].map recKey).toFinset).card :=
  ⟨⟨by decide, by decide⟩,
    (reconcile_one_result_per_key "BTPN" [sampleBankRec] [sampleBpkhRec2]
      (by decide) (by decide)).2.2⟩

/-- **C2.** For a primary record `r` whose key also occurs among the BPKH
records (as record `q`), the result carrying that key is classified
`MATCHED` iff `|r.yield − q.yield| < 1`, and `DIFFERENCE` otherwise. -/
theorem reconcile_matched_iff_variance_lt_one (bc : String)
    (bank bpkh : List DepositoRecord)
    (hb : (bank.map recKey).Nodup) (hp : (bpkh.map recKey).Nodup)
    (r q : DepositoRecord) (hr : r ∈ bank) (hq : q ∈ bpkh)
    (hkey : recKey q = recKey r) :
    ∀ res ∈ reconcile bc bank bpkh, resKey res = recKey r →
      ((res.status = RekonStatus.MATCHED ↔
          |r.nominal_imbal_hasil - q.nominal_imbal_hasil| < 1) ∧
        (res.status = RekonStatus.DIFFERENCE ↔
          ¬ |r.nominal_imbal_hasil - q.nominal_imbal_hasil| < 1)) := by
  intro res hres hkeyres
  have hfind : dictFind (recKey r) (buildLookup bpkh) = some q := by
    rw [← hkey]
    exact dictFind_buildLookup_of_mem hp hq
  have hfst : res ∈ (reconcileLoop bc bank (buildLookup bpkh)).1 :=
    mem_fst_of_key_in_bank hres (by rw [hkeyres]; exact List.mem_map_of_mem recKey hr)
  have hchar := reconcileLoop_matched_char bc bank (buildLookup bpkh) hb hr hfind
    res hfst hkeyres
  subst hchar
  by_cases habs : |r.nominal_imbal_hasil - q.nominal_imbal_hasil| < 1 <;>
    simp [mkMatched, habs]

/-- Witness for C2: concrete matched pair with equal yields is classified
`MATCHED`. -/
theorem reconcile_matched_iff_variance_lt_one_witness :
    ((mkMatched "BTPN" sampleBankRec sampleBpkhRec).status = RekonStatus.MATCHED ↔
      |sampleBankRec.nominal_imbal_hasil - sampleBpkhRec.nominal_imbal_hasil| < 1) ∧
    ((mkMatched "BTPN" sampleBankRec sampleBpkhRec).status = RekonStatus.DIFFERENCE ↔
      ¬ |sampleBankRec.nominal_imbal_hasil - sampleBpkhRec.nominal_imbal_hasil| < 1) := by
  refine reconcile_matched_iff_variance_lt_one "BTPN" [sampleBankRec] [sampleBpkhRec]
    (by decide) (by decide) sampleBankRec sampleBpkhRec (by simp) (by simp)
    rfl (mkMatched "BTPN" sampleBankRec sampleBpkhRec) ?_ rfl
  rw [show reconcile "BTPN" [sampleBankRec] [sampleBpkhRec] =
    [mkMatched "BTPN" sampleBankRec sampleBpkhRec] from rfl]
  simp

theorem countP_eq_one_of_nodup {α : Type} [DecidableEq α] {l : List α}
    (h : l.Nodup) {a : α} (ha : a ∈ l) :
    l.countP (fun x => decide (x = a)) = 1 := by
  induction l with
  | nil => simp at ha
  | cons b rest ih =>
    simp only [List.nodup_cons] at h
    rcases List.mem_cons.mp ha with rfl | ha'
    · rw [List.countP_cons]
      have h0 : rest.countP (fun x => decide (x = a)) = 0 := by
        rw [List.countP_eq_zero]
        intro x hx hdec
        exact h.1 (of_decide_eq_true hdec ▸ hx)
      simp [h0]
    · rw [List.countP_cons]
      have hba : b ≠ a := fun hcontra => h.1 (hcontra ▸ ha')
      simp [ih h.2 ha', hba]

/-- Bank record with key `("D1", "010")` and yield 10. -/
def dupBankRec : DepositoRecord :=
  { bank_code := "BTPN", nomor_bilyet := "D1", nomor_rekening := "010"
    nominal_deposito := 1000, nominal_imbal_hasil := 10
    jenis_deposito := DepositoType.SETORAN_AWAL, source := "bank" }

/-- First BPKH record with key `("D1", "010")`, yield 5. -/
def dupBpkhFirst : DepositoRecord :=
  { bank_code := "BTPN", nomor_bilyet := "D1", nomor_rekening := "010"
    nominal_deposito := 1000, nominal_imbal_hasil := 5
    jenis_deposito := DepositoType.SETORAN_AWAL, source := "bpkh" }

/-- Second BPKH record with the same key `("D1", "010")`, yield 10. -/
def dupBpkhLast : DepositoRecord :=
  { bank_code := "BTPN", nomor_bilyet := "D1", nomor_rekening := "010"
    nominal_deposito := 1000, nominal_imbal_hasil := 10
    jenis_deposito := DepositoType.SETORAN_AWAL, source := "bpkh" }

/-- **C3, counterexample.** The claim predicts that the bank record is
matched against the *first* BPKH record with its key (yield 5, so a
`DIFFERENCE` of 5) and that the later duplicate is emitted as a
not-found-in-bank result, for two results in total.  The dict
comprehension is last-write-wins: the code produces exactly *one* result,
matched against the *last* duplicate (yield 10, hence `MATCHED`), and the
first duplicate vanishes without any result. -/
theorem reconcile_dup_first_match_counterexample :
    (reconcile "BTPN" [dupBankRec] [dupBpkhFirst, dupBpkhLast]).length = 1 ∧
    (reconcile "BTPN" [dupBankRec] [dupBpkhFirst, dupBpkhLast]).map
        (fun res => (res.imbal_hasil_bpkh, res.status)) =
      [(10, RekonStatus.MATCHED)] ∧
    dupBpkhFirst.nominal_imbal_hasil = 5 := by
  have h : reconcile "BTPN" [dupBankRec] [dupBpkhFirst, dupBpkhLast] =
      [mkMatched "BTPN" dupBankRec dupBpkhLast] := rfl
  refine ⟨by rw [h]; rfl, ?_, rfl⟩
  rw [h]
  norm_num [mkMatched, dupBankRec, dupBpkhLast]

/-- **C3, amended.** When the BPKH input has several records sharing a
bank record's key, the bank record is matched against the *last* such BPKH
record in source order, and the duplicates before it are silently dropped:
exactly one result carries that key. -/
theorem reconcile_dup_last_wins (bc : String) (bank bpkh : List DepositoRecord)
    (hb : (bank.map recKey).Nodup) (r : DepositoRecord) (hr : r ∈ bank)
    (q : DepositoRecord)
    (hfind : bpkh.reverse.find? (fun x => decide (recKey x = recKey r)) = some q) :
    (∀ res ∈ reconcile bc bank bpkh, resKey res = recKey r →
        res = mkMatched bc r q) ∧
    ((reconcile bc bank bpkh).map resKey).countP
      (fun k => decide (k = recKey r)) = 1 := by
  constructor
  · intro res hres hkey
    have hfind' : dictFind (recKey r) (buildLookup bpkh) = some q := by
      rw [dictFind_buildLookup]
      exact hfind
    have hfst : res ∈ (reconcileLoop bc bank (buildLookup bpkh)).1 :=
      mem_fst_of_key_in_bank hres (by rw [hkey]; exact List.mem_map_of_mem recKey hr)
    exact reconcileLoop_matched_char bc bank (buildLookup bpkh) hb hr hfind' res hfst hkey
  · rw [reconcile_map_resKey, List.countP_append]
    have h1 : (bank.map recKey).countP (fun k => decide (k = recKey r)) = 1 :=
      countP_eq_one_of_nodup hb (List.mem_map_of_mem recKey hr)
    have h2 : (((buildLookup bpkh).map Prod.fst).filter
        (fun k => decide (k ∉ bank.map recKey))).countP
          (fun k => decide (k = recKey r)) = 0 := by
      rw [List.countP_eq_zero]
      intro k hk hdec
      have hkr : k = recKey r := of_decide_eq_true hdec
      have := of_decide_eq_true (List.mem_filter.mp hk).2
      exact this (hkr ▸ List.mem_map_of_mem recKey hr)
    rw [h1, h2]

/-- Witness for the amended C3 on the concrete duplicate scenario. -/
theorem reconcile_dup_last_wins_witness :
    ((reconcile "BTPN" [dupBankRec] [dupBpkhFirst, dupBpkhLast]).map resKey).countP
      (fun k => decide (k = recKey dupBankRec)) = 1 :=
  (reconcile_dup_last_wins "BTPN" [dupBankRec] [dupBpkhFirst, dupBpkhLast]
    (by decide) dupBankRec (by simp) dupBpkhLast rfl).2

/-- **C4.** A bank record whose key is absent from the BPKH input yields a
result with BPKH yield 0, variance = bank yield, percentage 100 and status
`NOT_FOUND_BPKH`; an unconsumed BPKH record yields a result with bank
yield 0, variance = −(BPKH yield), percentage −100 and status
`NOT_FOUND_BANK`. -/
theorem reconcile_not_found_results (bc : String) (bank bpkh : List DepositoRecord)
    (hb : (bank.map recKey).Nodup) (hp : (bpkh.map recKey).Nodup) :
    (∀ r ∈ bank, recKey r ∉ bpkh.map recKey →
      ∃ res ∈ reconcile bc bank bpkh, resKey res = recKey r ∧
        res.imbal_hasil_bpkh = 0 ∧ res.selisih = r.nominal_imbal_hasil ∧
        res.persentase_selisih = 100 ∧ res.status = RekonStatus.NOT_FOUND_BPKH) ∧
    (∀ q ∈ bpkh, recKey q ∉ bank.map recKey →
      ∃ res ∈ reconcile bc bank bpkh, resKey res = recKey q ∧
        res.imbal_hasil_bank = 0 ∧ res.selisih = -q.nominal_imbal_hasil ∧
        res.persentase_selisih = -100 ∧ res.status = RekonStatus.NOT_FOUND_BANK) := by
  constructor
  · intro r hr hnot
    have hfind : dictFind (recKey r) (buildLookup bpkh) = none := by
      rw [dictFind_buildLookup]
      apply List.find?_eq_none.mpr
      intro x hx
      simp only [decide_eq_true_eq]
      intro hcontra
      exact hnot (hcontra ▸ List.mem_map_of_mem recKey (List.mem_reverse.mp hx))
    have hmemkeys : recKey r ∈ (reconcile bc bank bpkh).map resKey := by
      rw [reconcile_map_resKey]
      exact List.mem_append_left _ (List.mem_map_of_mem recKey hr)
    obtain ⟨res, hres, hkeyres⟩ := List.mem_map.mp hmemkeys
    have hfst : res ∈ (reconcileLoop bc bank (buildLookup bpkh)).1 :=
      mem_fst_of_key_in_bank hres (by rw [hkeyres]; exact List.mem_map_of_mem recKey hr)
    have hchar := reconcileLoop_notfound_char bc bank (buildLookup bpkh) hb hr hfind
      res hfst hkeyres
    subst hchar
    exact ⟨mkNotFoundBPKH bc r, hres, hkeyres, rfl, rfl, rfl, rfl⟩
  · intro q hq hnot
    refine ⟨mkNotFoundBank bc q, ?_, resKey_mkNotFoundBank bc q, rfl, rfl, rfl, rfl⟩
    unfold reconcile
    apply List.mem_append_right
    apply List.mem_map.mpr
    refine ⟨(recKey q, q), ?_, rfl⟩
    rw [reconcileLoop_snd, buildLookup_of_nodup hp]
    rw [List.mem_filter]
    exact ⟨List.mem_map_of_mem (fun r => (recKey r, r)) hq, decide_eq_true hnot⟩

/-- Witness for C4: one bank-only record and one BPKH-only record. -/
theorem reconcile_not_found_results_witness :
    (∃ res ∈ reconcile "BTPN" [sampleBankRec] [sampleBpkhRec2],
      resKey res = recKey sampleBankRec ∧
        res.imbal_hasil_bpkh = 0 ∧ res.selisih = sampleBankRec.nominal_imbal_hasil ∧
        res.persentase_selisih = 100 ∧ res.status = RekonStatus.NOT_FOUND_BPKH) ∧
    (∃ res ∈ reconcile "BTPN" [sampleBankRec] [sampleBpkhRec2],
      resKey res = recKey sampleBpkhRec2 ∧
        res.imbal_hasil_bank = 0 ∧ res.selisih = -sampleBpkhRec2.nominal_imbal_hasil ∧
        res.persentase_selisih = -100 ∧ res.status = RekonStatus.NOT_FOUND_BANK) :=
  ⟨(reconcile_not_found_results "BTPN" [sampleBankRec] [sampleBpkhRec2]
      (by decide) (by decide)).1 sampleBankRec (by simp) (by decide),
    (reconcile_not_found_results "BTPN" [sampleBankRec] [sampleBpkhRec2]
      (by decide) (by decide)).2 sampleBpkhRec2 (by simp) (by decide)⟩

/-- Bank record with key `("Z1", "009")` and yield 0. -/
def zeroBankRec : DepositoRecord :=
  { bank_code := "BTPN", nomor_bilyet := "Z1", nomor_rekening := "009"
    nominal_deposito := 100, nominal_imbal_hasil := 0
    jenis_deposito := DepositoType.SETORAN_AWAL, source := "bank" }

/-- BPKH record with the same key `("Z1", "009")` and yield 5. -/
def zeroBpkhRec : DepositoRecord :=
  { bank_code := "BTPN", nomor_bilyet := "Z1", nomor_rekening := "009"
    nominal_deposito := 100, nominal_imbal_hasil := 5
    jenis_deposito := DepositoType.SETORAN_AWAL, source := "bpkh" }

/-- **C5, counterexample.** For the key-matched pair with bank yield 0 and
BPKH yield 5 (yields differ), the claim predicts variance percentage 100;
the code's guard `if bank_rec.nominal_imbal_hasil != 0 ... else 0` yields
percentage 0 instead. -/
theorem reconcile_zero_bank_pct_counterexample :
    (reconcile "BTPN" [zeroBankRec] [zeroBpkhRec]).map
        (fun res => (res.persentase_selisih, res.imbal_hasil_bank, res.imbal_hasil_bpkh)) =
      [((0 : ℚ), (0 : ℚ), (5 : ℚ))] ∧
    (0 : ℚ) ≠ 100 :=
  ⟨rfl, by norm_num⟩

/-- **C5, amended.** For a key-matched pair whose primary-side yield is
zero (and whose yields differ), the result's variance percentage is 0 —
the explicit zero-division guard — not 100. -/
theorem reconcile_zero_bank_yield_pct_zero (bc : String)
    (bank bpkh : List DepositoRecord)
    (hb : (bank.map recKey).Nodup) (hp : (bpkh.map recKey).Nodup)
    (r q : DepositoRecord) (hr : r ∈ bank) (hq : q ∈ bpkh)
    (hkey : recKey q = recKey r)
    (hzero : r.nominal_imbal_hasil = 0)
    (_hne : q.nominal_imbal_hasil ≠ r.nominal_imbal_hasil) :
    ∀ res ∈ reconcile bc bank bpkh, resKey res = recKey r →
      res.persentase_selisih = 0 := by
  intro res hres hkeyres
  have hfind : dictFind (recKey r) (buildLookup bpkh) = some q := by
    rw [← hkey]
    exact dictFind_buildLookup_of_mem hp hq
  have hfst : res ∈ (reconcileLoop bc bank (buildLookup bpkh)).1 :=
    mem_fst_of_key_in_bank hres (by rw [hkeyres]; exact List.mem_map_of_mem recKey hr)
  have hchar := reconcileLoop_matched_char bc bank (buildLookup bpkh) hb hr hfind
    res hfst hkeyres
  subst hchar
  simp [mkMatched, hzero]

/-- Witness for the amended C5 on the concrete zero-yield pair. -/
theorem reconcile_zero_bank_yield_pct_zero_witness :
    (mkMatched "BTPN" zeroBankRec zeroBpkhRec).persentase_selisih = 0 := by
  refine reconcile_zero_bank_yield_pct_zero "BTPN" [zeroBankRec] [zeroBpkhRec]
    (by decide) (by decide) zeroBankRec zeroBpkhRec (by simp) (by simp) rfl rfl
    (by norm_num [zeroBankRec, zeroBpkhRec])
    (mkMatched "BTPN" zeroBankRec zeroBpkhRec) ?_ rfl
  rw [show reconcile "BTPN" [zeroBankRec] [zeroBpkhRec] =
    [mkMatched "BTPN" zeroBankRec zeroBpkhRec] from rfl]
  simp

/-! ## Python `round(x, 2)` -/

/-- Python's `round` to the nearest integer, ties going to the even
integer (banker's rounding), on an exact rational. -/
def roundHalfEven (q : ℚ) : ℤ :=
  if q - ⌊q⌋ < 1/2 then ⌊q⌋
  else if 1/2 < q - ⌊q⌋ then ⌊q⌋ + 1
  else if ⌊q⌋ % 2 = 0 then ⌊q⌋ else ⌊q⌋ + 1

/-- Python `round(q, 2)`: round to two decimal places. -/
def round2 (q : ℚ) : ℚ :=
  (roundHalfEven (100 * q) : ℚ) / 100

theorem floor_le_roundHalfEven (q : ℚ) : ⌊q⌋ ≤ roundHalfEven q := by
  unfold roundHalfEven
  split_ifs <;> omega

theorem roundHalfEven_le_floor_add_one (q : ℚ) : roundHalfEven q ≤ ⌊q⌋ + 1 := by
  unfold roundHalfEven
  split_ifs <;> omega

theorem roundHalfEven_mono {x y : ℚ} (h : x ≤ y) :
    roundHalfEven x ≤ roundHalfEven y := by
  rcases lt_or_le ⌊x⌋ ⌊y⌋ with hf | hf
  · calc roundHalfEven x ≤ ⌊x⌋ + 1 := roundHalfEven_le_floor_add_one x
      _ ≤ ⌊y⌋ := by omega
      _ ≤ roundHalfEven y := floor_le_roundHalfEven y
  · have hfe : ⌊x⌋ = ⌊y⌋ := le_antisymm (Int.floor_le_floor h) hf
    unfold roundHalfEven
    rw [hfe]
    split_ifs <;> first | omega | (exfalso; linarith)

theorem roundHalfEven_intCast (n : ℤ) : roundHalfEven (n : ℚ) = n := by
  unfold roundHalfEven
  rw [Int.floor_intCast]
  rw [if_pos (by norm_num)]

theorem roundHalfEven_nonneg {q : ℚ} (h : 0 ≤ q) : 0 ≤ roundHalfEven q := by
  have := floor_le_roundHalfEven q
  have h0 : (0 : ℤ) ≤ ⌊q⌋ := Int.floor_nonneg.mpr h
  omega

theorem round2_mono {x y : ℚ} (h : x ≤ y) : round2 x ≤ round2 y := by
  unfold round2
  have h1 := roundHalfEven_mono (show 100 * x ≤ 100 * y by linarith)
  have h2 : ((roundHalfEven (100 * x) : ℤ) : ℚ) ≤ ((roundHalfEven (100 * y) : ℤ) : ℚ) := by
    exact_mod_cast h1
  linarith

theorem round2_nonneg {q : ℚ} (h : 0 ≤ q) : 0 ≤ round2 q := by
  unfold round2
  have h1 : (0 : ℤ) ≤ roundHalfEven (100 * q) := roundHalfEven_nonneg (by linarith)
  have h2 : (0 : ℚ) ≤ ((roundHalfEven (100 * q) : ℤ) : ℚ) := by exact_mod_cast h1
  linarith

theorem round2_eq_of_eq_intCast {q : ℚ} {n : ℤ} (h : 100 * q = (n : ℚ)) :
    round2 q = (n : ℚ) / 100 := by
  unfold round2
  rw [h, roundHalfEven_intCast]

/-! ## Adapter rate tables and expected yield
(`models/bank_btpn.py`, `models/bank_bps.py`) -/

/-- `nisbah_rates` from the BTPN config (`bank_btpn.py` lines 33–38). -/
def btpn_nisbah_rates : List (String × ℚ) :=
  [("SA", 93/1000), ("SL", 93/1000), ("NM", 835/10000), ("LPS", 45/1000)]

/-- `nisbah_rates` from the BPS config (`bank_bps.py` lines 34–39). -/
def bps_nisbah_rates : List (String × ℚ) :=
  [("SA", 475/10000), ("SL", 475/10000), ("NM", 5/100), ("LPS", 45/1000)]

/-- The rate chosen by `BankBTPN.calculate_expected_imbal_hasil` (lines
179–182): `record.nisbah_rate or self.config.nisbah_rates.get(jenis, 0.09)`.
Python `or` also falls through to the table when the declared rate is the
falsy value `0.0`. -/
def btpnNisbahOf (record : DepositoRecord) : ℚ :=
  match record.nisbah_rate with
  | some x =>
      if x = 0 then (dictFind record.jenis_deposito.value btpn_nisbah_rates).getD (9/100)
      else x
  | none => (dictFind record.jenis_deposito.value btpn_nisbah_rates).getD (9/100)

/-- The rate chosen by `BankBPS.calculate_expected_imbal_hasil` (lines
193–196): always the table entry for the record's category with fallback
0.0475 — the record's own `nisbah_rate` field is never consulted. -/
def bpsNisbahOf (record : DepositoRecord) : ℚ :=
  (dictFind record.jenis_deposito.value bps_nisbah_rates).getD (475/10000)

/-- `BankBTPN.calculate_expected_imbal_hasil` (lines 173–187).  Python's
`not record.periode_hari or record.periode_hari <= 0` is true for `None`,
`0` and negatives, i.e. exactly when the period is absent or `≤ 0`.
`config.year_days = 360`. -/
def BankBTPN_calculate_expected_imbal_hasil (record : DepositoRecord) : ℚ :=
  match record.periode_hari with
  | none => 0
  | some d =>
      if d ≤ 0 then 0
      else round2 (record.nominal_deposito * btpnNisbahOf record * d / 360)

/-- `BankBPS.calculate_expected_imbal_hasil` (lines 187–201). -/
def BankBPS_calculate_expected_imbal_hasil (record : DepositoRecord) : ℚ :=
  match record.periode_hari with
  | none => 0
  | some d =>
      if d ≤ 0 then 0
      else round2 (record.nominal_deposito * bpsNisbahOf record * d / 360)

/-- Holding-period computation in `BankBTPN.parse_bank_data` (lines
92–95): `periode_hari = (tanggal_jatuh_tempo - tanggal_penempatan).days`
when both dates parse, else `None` — with no sign check. -/
def btpn_periode_hari (tanggal_penempatan tanggal_jatuh_tempo : Option Int) : Option Int :=
  match tanggal_penempatan, tanggal_jatuh_tempo with
  | some p, some m => some (m - p)
  | _, _ => none

/-- Holding-period computation in `BankBPS.parse_bank_data` (lines
94–97), identical in form to the BTPN one. -/
def bps_periode_hari (tanggal_penempatan tanggal_jatuh_tempo : Option Int) : Option Int :=
  match tanggal_penempatan, tanggal_jatuh_tempo with
  | some p, some m => some (m - p)
  | _, _ => none

/-- BPS record that declares its own rate `0.10` (category SA, principal
1000, period 360 days). -/
def bpsOwnRateRec : DepositoRecord :=
  { bank_code := "BPS", nomor_bilyet := "R1", nomor_rekening := "100"
    nominal_deposito := 1000, nominal_imbal_hasil := 0
    jenis_deposito := DepositoType.SETORAN_AWAL
    nisbah_rate := some (1/10), periode_hari := some 360, source := "bank" }

/-- **C6, counterexample.** The claim says every adapter prefers the
record's own declared rate.  `BankBPS.calculate_expected_imbal_hasil`
never reads `record.nisbah_rate`: for a record declaring rate 0.10 with
principal 1000 over 360 days it returns 47.5 (table rate 0.0475 for SA),
whereas the declared rate would give 100. -/
theorem bps_ignores_declared_rate_counterexample :
    bpsOwnRateRec.nisbah_rate = some (1/10) ∧
    BankBPS_calculate_expected_imbal_hasil bpsOwnRateRec = 95/2 ∧
    round2 (bpsOwnRateRec.nominal_deposito * (1/10) * ((360 : ℤ) : ℚ) / 360) = 100 ∧
    ((95 : ℚ)/2) ≠ 100 := by
  refine ⟨rfl, ?_, ?_, by norm_num⟩
  · have hrate : bpsNisbahOf bpsOwnRateRec = 475/10000 := by
      simp [bpsNisbahOf, bpsOwnRateRec, bps_nisbah_rates, dictFind, DepositoType.value]
    have hper : bpsOwnRateRec.periode_hari = some 360 := rfl
    simp only [BankBPS_calculate_expected_imbal_hasil, hper]
    rw [if_neg (by norm_num), hrate,
      show bpsOwnRateRec.nominal_deposito = (1000:ℚ) from rfl]
    have harg : (1000:ℚ) * (475/10000) * ((360 : ℤ) : ℚ) / 360 = 95/2 := by
      push_cast
      norm_num
    rw [harg,
      round2_eq_of_eq_intCast (show (100:ℚ) * (95/2) = ((4750:ℤ):ℚ) by norm_num)]
    norm_num
  · rw [show bpsOwnRateRec.nominal_deposito = (1000:ℚ) from rfl]
    have h : (1000:ℚ) * (1/10) * ((360 : ℤ) : ℚ) / 360 = 100 := by push_cast; norm_num
    rw [h, round2_eq_of_eq_intCast (show (100:ℚ) * 100 = ((10000:ℤ):ℚ) by norm_num)]
    norm_num

/-- **C6, amended.** Rate selection is adapter-specific: BTPN uses the
record's own declared rate when present and nonzero, otherwise its table
entry for the category with fallback 0.09; BPS always uses its table entry
with fallback 0.0475 and ignores the record's declared rate entirely. -/
theorem expected_rate_selection :
    (∀ (rec : DepositoRecord) (x : ℚ) (d : ℤ), rec.nisbah_rate = some x → x ≠ 0 →
      rec.periode_hari = some d → 0 < d →
      BankBTPN_calculate_expected_imbal_hasil rec =
        round2 (rec.nominal_deposito * x * (d : ℚ) / 360)) ∧
    (∀ rec : DepositoRecord, rec.nisbah_rate = none ∨ rec.nisbah_rate = some 0 →
      btpnNisbahOf rec =
        (dictFind rec.jenis_deposito.value btpn_nisbah_rates).getD (9/100)) ∧
    (∀ (rec : DepositoRecord) (x : Option ℚ),
      BankBPS_calculate_expected_imbal_hasil { rec with nisbah_rate := x } =
        BankBPS_calculate_expected_imbal_hasil rec) := by
  refine ⟨?_, ?_, fun rec x => rfl⟩
  · intro rec x d hx hxne hd hdpos
    have hrate : btpnNisbahOf rec = x := by
      simp [btpnNisbahOf, hx, hxne]
    simp only [BankBTPN_calculate_expected_imbal_hasil, hd]
    rw [if_neg (not_le.mpr hdpos), hrate]
  · intro rec h
    rcases h with h | h <;> simp [btpnNisbahOf, h]

/-- BTPN record that declares its own rate `0.08` (category SA, principal
1000, period 30 days). -/
def btpnOwnRateRec : DepositoRecord :=
  { bank_code := "BTPN", nomor_bilyet := "R2", nomor_rekening := "200"
    nominal_deposito := 1000, nominal_imbal_hasil := 0
    jenis_deposito := DepositoType.SETORAN_AWAL
    nisbah_rate := some (8/100), periode_hari := some 30, source := "bank" }

/-- Witness for the amended C6: BTPN honours a declared nonzero rate. -/
theorem expected_rate_selection_witness :
    BankBTPN_calculate_expected_imbal_hasil btpnOwnRateRec =
      round2 (btpnOwnRateRec.nominal_deposito * (8/100) * ((30 : ℤ) : ℚ) / 360) :=
  expected_rate_selection.1 btpnOwnRateRec (8/100) 30 rfl (by norm_num) rfl
    (by norm_num)

/-- **C7, counterexample.** With placement day 10 and maturity day 5 both
present, both parsers set `periode_hari = some (-5)`: the field is not
left unset, and the stored length is negative — the parsers perform no
sign check. -/
theorem periode_hari_negative_counterexample :
    btpn_periode_hari (some 10) (some 5) = some (-5) ∧
    bps_periode_hari (some 10) (some 5) = some (-5) ∧
    btpn_periode_hari (some 10) (some 5) ≠ none ∧
    ¬ (0 ≤ (-5 : ℤ)) :=
  ⟨rfl, rfl, by simp [btpn_periode_hari], by norm_num⟩

/-- **C7, amended.** When both dates are present the holding-period is set
to (maturity − placement) in days, including negative values; it is unset
exactly when a date is missing; the expected-yield computation then
returns 0 whenever the stored period is ≤ 0. -/
theorem periode_hari_eq_date_difference :
    (∀ p m : ℤ, btpn_periode_hari (some p) (some m) = some (m - p) ∧
      bps_periode_hari (some p) (some m) = some (m - p)) ∧
    (∀ op om : Option Int,
      (btpn_periode_hari op om = none ↔ op = none ∨ om = none) ∧
      (bps_periode_hari op om = none ↔ op = none ∨ om = none)) ∧
    (∀ (rec : DepositoRecord) (d : ℤ), rec.periode_hari = some d → d ≤ 0 →
      BankBTPN_calculate_expected_imbal_hasil rec = 0 ∧
      BankBPS_calculate_expected_imbal_hasil rec = 0) := by
  refine ⟨fun p m => ⟨rfl, rfl⟩, ?_, ?_⟩
  · intro op om
    constructor <;> (cases op <;> cases om <;>
      simp [btpn_periode_hari, bps_periode_hari])
  · intro rec d hd hle
    constructor <;>
      simp [BankBTPN_calculate_expected_imbal_hasil,
        BankBPS_calculate_expected_imbal_hasil, hd, hle]

/-- Record whose stored holding-period is the negative value −5. -/
def negPeriodeRec : DepositoRecord :=
  { bank_code := "BTPN", nomor_bilyet := "N1", nomor_rekening := "300"
    nominal_deposito := 1000, nominal_imbal_hasil := 0
    jenis_deposito := DepositoType.SETORAN_AWAL
    periode_hari := some (-5), source := "bank" }

/-- Witness for the amended C7: a stored negative period makes both
expected-yield computations return 0. -/
theorem periode_hari_eq_date_difference_witness :
    BankBTPN_calculate_expected_imbal_hasil negPeriodeRec = 0 ∧
    BankBPS_calculate_expected_imbal_hasil negPeriodeRec = 0 :=
  periode_hari_eq_date_difference.2.2 negPeriodeRec (-5) rfl (by norm_num)

theorem calc_step_mono (dep rate : ℚ) (hdep : 0 ≤ dep) (hrate : 0 ≤ rate)
    {d₁ d₂ : ℤ} (hd : d₁ ≤ d₂) :
    (if d₁ ≤ 0 then (0:ℚ) else round2 (dep * rate * (d₁ : ℚ) / 360)) ≤
      (if d₂ ≤ 0 then (0:ℚ) else round2 (dep * rate * (d₂ : ℚ) / 360)) := by
  by_cases h2 : d₂ ≤ 0
  · rw [if_pos (le_trans hd h2), if_pos h2]
  · rw [if_neg h2]
    by_cases h1 : d₁ ≤ 0
    · rw [if_pos h1]
      apply round2_nonneg
      apply div_nonneg _ (by norm_num)
      apply mul_nonneg (mul_nonneg hdep hrate)
      have hpos : (0:ℤ) < d₂ := lt_of_not_le h2
      exact_mod_cast hpos.le
    · rw [if_neg h1]
      apply round2_mono
      have hc : (d₁ : ℚ) ≤ (d₂ : ℚ) := by exact_mod_cast hd
      have hmul := mul_le_mul_of_nonneg_left hc (mul_nonneg hdep hrate)
      have hmul' : dep * rate * (d₁ : ℚ) ≤ dep * rate * (d₂ : ℚ) := by
        calc dep * rate * (d₁ : ℚ) = dep * rate * (d₁ : ℚ) := rfl
          _ ≤ dep * rate * (d₂ : ℚ) := hmul
      linarith

/-- **C8.** For fixed non-negative principal and selected rate, the
expected-yield computation of either adapter is monotone non-decreasing in
the holding-period length, and returns 0 whenever the period is absent or
≤ 0. -/
theorem expected_imbal_hasil_monotone :
    (∀ (rec : DepositoRecord) (d₁ d₂ : ℤ), d₁ ≤ d₂ →
      0 ≤ rec.nominal_deposito → 0 ≤ btpnNisbahOf rec →
      BankBTPN_calculate_expected_imbal_hasil { rec with periode_hari := some d₁ } ≤
        BankBTPN_calculate_expected_imbal_hasil { rec with periode_hari := some d₂ }) ∧
    (∀ (rec : DepositoRecord) (d₁ d₂ : ℤ), d₁ ≤ d₂ →
      0 ≤ rec.nominal_deposito → 0 ≤ bpsNisbahOf rec →
      BankBPS_calculate_expected_imbal_hasil { rec with periode_hari := some d₁ } ≤
        BankBPS_calculate_expected_imbal_hasil { rec with periode_hari := some d₂ }) ∧
    (∀ rec : DepositoRecord, rec.periode_hari = none →
      BankBTPN_calculate_expected_imbal_hasil rec = 0 ∧
      BankBPS_calculate_expected_imbal_hasil rec = 0) ∧
    (∀ (rec : DepositoRecord) (d : ℤ), rec.periode_hari = some d → d ≤ 0 →
      BankBTPN_calculate_expected_imbal_hasil rec = 0 ∧
      BankBPS_calculate_expected_imbal_hasil rec = 0) := by
  refine ⟨?_, ?_, ?_, ?_⟩
  · intro rec d₁ d₂ hd hdep hrate
    exact calc_step_mono rec.nominal_deposito (btpnNisbahOf rec) hdep hrate hd
  · intro rec d₁ d₂ hd hdep hrate
    exact calc_step_mono rec.nominal_deposito (bpsNisbahOf rec) hdep hrate hd
  · intro rec h
    constructor <;>
      simp [BankBTPN_calculate_expected_imbal_hasil,
        BankBPS_calculate_expected_imbal_hasil, h]
  · intro rec d hd hle
    constructor <;>
      simp [BankBTPN_calculate_expected_imbal_hasil,
        BankBPS_calculate_expected_imbal_hasil, hd, hle]

/-- Record with a declared rate 0.09, used to witness monotonicity. -/
def monoRec : DepositoRecord :=
  { bank_code := "BTPN", nomor_bilyet := "M1", nomor_rekening := "400"
    nominal_deposito := 1000, nominal_imbal_hasil := 0
    jenis_deposito := DepositoType.SETORAN_AWAL
    nisbah_rate := some (9/100), source := "bank" }

/-- Witness for C8: 30 days versus 60 days, both adapters. -/
theorem expected_imbal_hasil_monotone_witness :
    (BankBTPN_calculate_expected_imbal_hasil { monoRec with periode_hari := some 30 } ≤
      BankBTPN_calculate_expected_imbal_hasil { monoRec with periode_hari := some 60 }) ∧
    (BankBPS_calculate_expected_imbal_hasil { monoRec with periode_hari := some 30 } ≤
      BankBPS_calculate_expected_imbal_hasil { monoRec with periode_hari := some 60 }) :=
  ⟨expected_imbal_hasil_monotone.1 monoRec 30 60 (by norm_num)
      (by norm_num [monoRec])
      (by norm_num [btpnNisbahOf, monoRec]),
    expected_imbal_hasil_monotone.2.1 monoRec 30 60 (by norm_num)
      (by norm_num [monoRec])
      (by norm_num [bpsNisbahOf, monoRec, bps_nisbah_rates, dictFind,
        DepositoType.value])⟩

/-! ## `BankBase.generate_summary` (`models/bank_base.py`, lines 261–307) -/

/-- One entry of the `by_type` breakdown. -/
structure TypeSummary : Type where
  count : Nat
  total_deposito : ℚ
  total_bank : ℚ
  total_bpkh : ℚ
  selisih : ℚ
deriving DecidableEq, Repr

/-- The summary dictionary returned by `generate_summary`. -/
structure Summary : Type where
  bank_code : String
  bank_name : String
  total_records : Nat
  matched_records : Nat
  difference_records : Nat
  match_rate : ℚ
  total_deposito : ℚ
  total_imbal_hasil_bank : ℚ
  total_imbal_hasil_bpkh : ℚ
  total_selisih : ℚ
  pct_selisih : ℚ
  by_type : List (String × TypeSummary)
  timestamp : String
deriving DecidableEq, Repr

/-- The `DepositoType` enum members in Python iteration order. -/
def allDepositoTypes : List DepositoType :=
  [DepositoType.SETORAN_AWAL, DepositoType.SETORAN_LUNAS,
    DepositoType.NILAI_MANFAAT, DepositoType.LPS, DepositoType.DAU]

/-- `BankBase.generate_summary`; `datetime.now().isoformat()` is passed in
as `now`. -/
def generate_summary (bank_code bank_name : String)
    (rekon_results : List RekonResult) (now : String) : Summary :=
  let total_records := rekon_results.length
  let matched_records :=
    (rekon_results.filter (fun r => decide (r.status = RekonStatus.MATCHED))).length
  let diff_records :=
    (rekon_results.filter (fun r => decide (r.status = RekonStatus.DIFFERENCE))).length
  let total_deposito := (rekon_results.map (fun r => r.nominal_deposito)).sum
  let total_bank := (rekon_results.map (fun r => r.imbal_hasil_bank)).sum
  let total_bpkh := (rekon_results.map (fun r => r.imbal_hasil_bpkh)).sum
  let total_selisih := (rekon_results.map (fun r => r.selisih)).sum
  let by_type := allDepositoTypes.filterMap (fun dep_type =>
    let type_results :=
      rekon_results.filter (fun r => decide (r.jenis_deposito = dep_type))
    if type_results.isEmpty then none
    else some (dep_type.value,
      { count := type_results.length
        total_deposito := (type_results.map (fun r => r.nominal_deposito)).sum
        total_bank := (type_results.map (fun r => r.imbal_hasil_bank)).sum
        total_bpkh := (type_results.map (fun r => r.imbal_hasil_bpkh)).sum
        selisih := (type_results.map (fun r => r.selisih)).sum }))
  { bank_code := bank_code
    bank_name := bank_name
    total_records := total_records
    matched_records := matched_records
    difference_records := diff_records
    match_rate :=
      if total_records > 0 then (matched_records : ℚ) / total_records * 100 else 0
    total_deposito := total_deposito
    total_imbal_hasil_bank := total_bank
    total_imbal_hasil_bpkh := total_bpkh
    total_selisih := total_selisih
    pct_selisih := if total_bank ≠ 0 then total_selisih / total_bank * 100 else 0
    by_type := by_type
    timestamp := now }

/-! ## `MultiRekonService` (`services/rekon_service.py`) -/

/-- One registered `BankBase` instance as the service sees it: its
configured code and name, and its two parsers.  Parsing touches the file
system and may raise — modelled as `Except`, with the exception's `str(e)`
as the error payload.  The shared `reconcile` and `generate_summary`
methods are the pure functions embedded above. -/
structure BankModel : Type where
  bank_code : String
  bank_name : String
  parse_bank_data : String → Except String (List DepositoRecord)
  parse_bpkh_data : String → Except String (List DepositoRecord)

/-- Service state: the `banks` registry and the `results_cache`. -/
structure MultiRekonService : Type where
  banks : List (String × BankModel)
  results_cache : List (String × List RekonResult)

/-- Outcome dictionary of `process_reconciliation`: either the success
dictionary `{success: True, bank_code, bank_name, summary, results,
bank_records_count, bpkh_records_count, timestamp}` or the failure
dictionary `{success: False, bank_code, error, timestamp}`. -/
inductive RekonOutcome : Type
  | ok (bank_code bank_name : String) (summary : Summary)
      (results : List RekonResult)
      (bank_records_count bpkh_records_count : Nat) (timestamp : String)
  | err (bank_code : String) (error : String) (timestamp : String)

/-- The `success` field of the outcome dictionary. -/
def RekonOutcome.success : RekonOutcome → Bool
  | .ok .. => true
  | .err .. => false

/-- `MultiRekonService.process_reconciliation` (lines 39–108): look the
bank up (raising `ValueError(f"Bank {bank_code} not supported")` if
absent), parse both files, reconcile, summarise, cache the results, and
return the success dictionary; any exception is caught and converted to
the failure dictionary.  `datetime.now().isoformat()` is passed in as
`now`. -/
def process_reconciliation (svc : MultiRekonService)
    (bank_code bank_file_path bpkh_file_path now : String) :
    RekonOutcome × MultiRekonService :=
  match dictFind bank_code svc.banks with
  | none =>
      (RekonOutcome.err bank_code ("Bank " ++ bank_code ++ " not supported") now, svc)
  | some bank =>
    match bank.parse_bank_data bank_file_path with
    | Except.error e => (RekonOutcome.err bank_code e now, svc)
    | Except.ok bank_records =>
      match bank.parse_bpkh_data bpkh_file_path with
      | Except.error e => (RekonOutcome.err bank_code e now, svc)
      | Except.ok bpkh_records =>
        let rekon_results := reconcile bank.bank_code bank_records bpkh_records
        let summary := generate_summary bank.bank_code bank.bank_name rekon_results now
        let svc' := { svc with
          results_cache := dictInsert bank_code rekon_results svc.results_cache }
        (RekonOutcome.ok bank_code bank.bank_name summary rekon_results
          bank_records.length bpkh_records.length now, svc')

/-- `MultiRekonService.process_multiple_banks` (lines 110–130): sequential
fan-out of `process_reconciliation`, collecting one outcome per requested
bank code. -/
def process_multiple_banks (svc : MultiRekonService)
    (bank_files : List (String × String × String)) (now : String) :
    List (String × RekonOutcome) × MultiRekonService :=
  match bank_files with
  | [] => ([], svc)
  | (bank_code, bank_file, bpkh_file) :: rest =>
    let step := process_reconciliation svc bank_code bank_file bpkh_file now
    let more := process_multiple_banks step.2 rest now
    ((bank_code, step.1) :: more.1, more.2)

/-- The outcome depends only on the `banks` registry, never on the
results cache. -/
theorem process_reconciliation_fst_congr (svc₁ svc₂ : MultiRekonService)
    (h : svc₁.banks = svc₂.banks) (bank_code bf pf now : String) :
    (process_reconciliation svc₁ bank_code bf pf now).1 =
      (process_reconciliation svc₂ bank_code bf pf now).1 := by
  unfold process_reconciliation
  rw [h]
  cases hfind : dictFind bank_code svc₂.banks with
  | none => simp
  | some bank =>
    cases hp1 : bank.parse_bank_data bf with
    | error e => simp [hp1]
    | ok bank_records =>
      cases hp2 : bank.parse_bpkh_data pf with
      | error e => simp [hp1, hp2]
      | ok bpkh_records => simp [hp1, hp2]

/-- `process_reconciliation` never touches the `banks` registry. -/
theorem process_reconciliation_snd_banks (svc : MultiRekonService)
    (bank_code bf pf now : String) :
    ((process_reconciliation svc bank_code bf pf now).2).banks = svc.banks := by
  unfold process_reconciliation
  cases hfind : dictFind bank_code svc.banks with
  | none => simp
  | some bank =>
    cases hp1 : bank.parse_bank_data bf with
    | error e => simp [hp1]
    | ok bank_records =>
      cases hp2 : bank.parse_bpkh_data pf with
      | error e => simp [hp1, hp2]
      | ok bpkh_records => simp [hp1, hp2]

/-- **C9.** `process_reconciliation` always returns a structured outcome —
a success dictionary or a `{success: false, bank_code, error, timestamp}`
dictionary — never an unhandled exception; an unsupported bank code gives
the structured `"Bank ... not supported"` failure; and
`process_multiple_banks` returns exactly one outcome per requested code,
each equal to what a standalone `process_reconciliation` on the original
service state would return, so one bank's failure cannot affect another's
outcome. -/
theorem process_reconciliation_structured_outcomes :
    (∀ (svc : MultiRekonService) (bank_code bf pf now : String),
      (∃ bn s rs n₁ n₂, (process_reconciliation svc bank_code bf pf now).1 =
        RekonOutcome.ok bank_code bn s rs n₁ n₂ now) ∨
      (∃ e, (process_reconciliation svc bank_code bf pf now).1 =
        RekonOutcome.err bank_code e now)) ∧
    (∀ (svc : MultiRekonService) (bank_code bf pf now : String),
      dictFind bank_code svc.banks = none →
      (process_reconciliation svc bank_code bf pf now).1 =
        RekonOutcome.err bank_code ("Bank " ++ bank_code ++ " not supported") now) ∧
    (∀ (svc : MultiRekonService) (bank_files : List (String × String × String))
        (now : String),
      (process_multiple_banks svc bank_files now).1 =
        bank_files.map (fun cf =>
          (cf.1, (process_reconciliation svc cf.1 cf.2.1 cf.2.2 now).1))) := by
  refine ⟨?_, ?_, ?_⟩
  · intro svc bank_code bf pf now
    cases hfind : dictFind bank_code svc.banks with
    | none =>
      exact Or.inr ⟨"Bank " ++ bank_code ++ " not supported",
        by simp [process_reconciliation, hfind]⟩
    | some bank =>
      cases hp1 : bank.parse_bank_data bf with
      | error e => exact Or.inr ⟨e, by simp [process_reconciliation, hfind, hp1]⟩
      | ok bank_records =>
        cases hp2 : bank.parse_bpkh_data pf with
        | error e =>
          exact Or.inr ⟨e, by simp [process_reconciliation, hfind, hp1, hp2]⟩
        | ok bpkh_records =>
          exact Or.inl ⟨bank.bank_name,
            generate_summary bank.bank_code bank.bank_name
              (reconcile bank.bank_code bank_records bpkh_records) now,
            reconcile bank.bank_code bank_records bpkh_records,
            bank_records.length, bpkh_records.length,
            by simp [process_reconciliation, hfind, hp1, hp2]⟩
  · intro svc bank_code bf pf now h
    simp [process_reconciliation, h]
  · suffices haux : ∀ (files : List (String × String × String)) (now : String)
        (svc₀ svc : MultiRekonService), svc.banks = svc₀.banks →
        (process_multiple_banks svc files now).1 =
          files.map (fun cf =>
            (cf.1, (process_reconciliation svc₀ cf.1 cf.2.1 cf.2.2 now).1)) by
      intro svc files now
      exact haux files now svc svc rfl
    intro files
    induction files with
    | nil => intro now svc₀ svc h; rfl
    | cons cf rest ih =>
      intro now svc₀ svc h
      obtain ⟨code, bf, pf⟩ := cf
      simp only [process_multiple_banks, List.map_cons]
      rw [process_reconciliation_fst_congr svc svc₀ h code bf pf now]
      rw [ih now svc₀ (process_reconciliation svc code bf pf now).2
        (by rw [process_reconciliation_snd_banks]; exact h)]

/-- A service with no registered banks and an empty cache. -/
def emptyService : MultiRekonService :=
  { banks := [], results_cache := [] }

/-- Witness for C9: an unsupported code on a concrete service produces
the structured failure. -/
theorem process_reconciliation_structured_outcomes_witness :
    dictFind "XX" emptyService.banks = none ∧
    (process_reconciliation emptyService "XX" "bank.xlsx" "bpkh.xlsx" "t").1 =
      RekonOutcome.err "XX" ("Bank " ++ "XX" ++ " not supported") "t" :=
  ⟨rfl, process_reconciliation_structured_outcomes.2.1 emptyService
    "XX" "bank.xlsx" "bpkh.xlsx" "t" rfl⟩

/-- **C10.** Whenever `process_reconciliation` returns a failure outcome,
the whole service state — in particular the results-cache entry for that
bank code — is exactly what it was before the call: the cache write
happens only after lookup, both parses, reconciliation and summary have
all succeeded. -/
theorem process_reconciliation_error_preserves_cache :
    ∀ (svc : MultiRekonService) (bank_code bf pf now : String),
      ((process_reconciliation svc bank_code bf pf now).1).success = false →
      (process_reconciliation svc bank_code bf pf now).2 = svc := by
  intro svc bank_code bf pf now h
  cases hfind : dictFind bank_code svc.banks with
  | none => simp [process_reconciliation, hfind]
  | some bank =>
    cases hp1 : bank.parse_bank_data bf with
    | error e => simp [process_reconciliation, hfind, hp1]
    | ok bank_records =>
      cases hp2 : bank.parse_bpkh_data pf with
      | error e => simp [process_reconciliation, hfind, hp1, hp2]
      | ok bpkh_records =>
        exfalso
        simp [process_reconciliation, hfind, hp1, hp2, RekonOutcome.success] at h

/-- Witness for C10: the failing call on the empty service leaves the
service state untouched. -/
theorem process_reconciliation_error_preserves_cache_witness :
    ((process_reconciliation emptyService "XX" "bank.xlsx" "bpkh.xlsx" "t").1).success
        = false ∧
    (process_reconciliation emptyService "XX" "bank.xlsx" "bpkh.xlsx" "t").2 =
      emptyService :=
  ⟨rfl, process_reconciliation_error_preserves_cache emptyService
    "XX" "bank.xlsx" "bpkh.xlsx" "t" rfl⟩

end Rekon
